import Mathlib

/-!
Verification of the navigation subsystem of the RTk-VL robot stack.

The definitions below are a shallow embedding of
`src/navigation/navigation_system.py` (class `NavigationSystem`) and of the
scan-side helpers of `src/hardware/lidar_controller.py` (class
`LidarController`).  Python floats are embedded as exact rationals where the
code only does field arithmetic and comparisons, and as real numbers where the
code uses trigonometry, square roots or pi.  Python's `int(...)` conversion
truncates toward zero, which is modelled explicitly.  The occupancy grid is a
total function from (row, column) to an occupancy value; the code indexes it
as `occupancy_map[y, x]`.
-/

namespace RTkNav

/-- Python `int(q)` on a rational: truncation toward zero. -/
def pyIntQ (q : ℚ) : ℤ := if 0 ≤ q then ⌊q⌋ else -⌊-q⌋

/-- Occupancy grid indexed as `grid y x`, mirroring `occupancy_map[y, x]`. -/
def Grid : Type := ℤ → ℤ → ℚ

/-- Write one cell of the grid (row `y`, column `x`). -/
def setCell (g : Grid) (y x : ℤ) (v : ℚ) : Grid :=
  fun y' x' => if y' = y ∧ x' = x then v else g y' x'

/-- Bounds test from the source: `0 <= map_x < map_size[0] and 0 <= map_y < map_size[1]`. -/
def inBounds (size0 size1 : ℤ) (x y : ℤ) : Prop :=
  0 ≤ x ∧ x < size0 ∧ 0 ≤ y ∧ y < size1

instance (size0 size1 x y : ℤ) : Decidable (inBounds size0 size1 x y) := by
  unfold inBounds; infer_instance

/-- Loop body state of `_bresenham_line`: the static data are the endpoint
`(x1, y1)`, the absolute deltas `dx, dy` and the step signs `sx, sy`; the
loop variables are the current point and the error term.  The fuel argument
bounds the number of steps; it is instantiated with `dx + dy`, which the
termination lemma below shows is always enough. -/
def bresLoop (x1 y1 dx dy sx sy : ℤ) : ℕ → ℤ → ℤ → ℤ → List (ℤ × ℤ)
  | fuel, x, y, err =>
    (x, y) ::
      (if x = x1 ∧ y = y1 then []
       else
         match fuel with
         | 0 => []
         | fuel + 1 =>
           let e2 := 2 * err
           let x' := if e2 > -dy then x + sx else x
           let err1 := if e2 > -dy then err - dy else err
           let y' := if e2 < dx then y + sy else y
           let err2 := if e2 < dx then err1 + dx else err1
           bresLoop x1 y1 dx dy sx sy fuel x' y' err2)

/-- Source `_bresenham_line(x0, y0, x1, y1)`. -/
def bresenham_line (x0 y0 x1 y1 : ℤ) : List (ℤ × ℤ) :=
  let dx := |x1 - x0|
  let dy := |y1 - y0|
  let sx : ℤ := if x0 < x1 then 1 else -1
  let sy : ℤ := if y0 < y1 then 1 else -1
  bresLoop x1 y1 dx dy sx sy (dx + dy).toNat x0 y0 (dx - dy)

/-- Source `_update_ray_casting(x0, y0, x1, y1)`: mark every in-bounds point of
the rasterized line except the final one (`points[:-1]`) as free (0.0). -/
def update_ray_casting (size0 size1 : ℤ) (g : Grid) (x0 y0 x1 y1 : ℤ) : Grid :=
  (bresenham_line x0 y0 x1 y1).dropLast.foldl
    (fun g p =>
      if inBounds size0 size1 p.1 p.2 then setCell g p.2 p.1 0 else g) g

/-- Lines 99-104 of `_update_slam`: given the endpoint cell `(mx, my)` of one
scan sample, mark it occupied (1.0) if it is within bounds and then ray-cast
free space from the local origin `(0, 0)` toward it. -/
def slamProcessEndpoint (size0 size1 : ℤ) (g : Grid) (mx my : ℤ) : Grid :=
  if inBounds size0 size1 mx my then
    update_ray_casting size0 size1 (setCell g my mx 1) 0 0 mx my
  else g

/-- One LiDAR sample `(quality, angle_degrees, distance_meters)`. -/
def Sample : Type := ℚ × ℚ × ℚ

instance : DecidableEq Sample := by unfold Sample; infer_instance

/-- Log events emitted through `self.logger` by the navigation system. -/
inductive LogEvent where
  | warnObstacle
  | infoPathPlanned
  | warnPathFail
  | infoTargetReached
  | warnEmergencyStop
  | infoResumed
  deriving DecidableEq

/-- Velocity command dictionary
`{'velocities': {'base_rotation': _, 'shoulder': _, 'elbow': _, 'wrist': _}}`. -/
structure Cmd where
  base_rotation : ℤ
  shoulder : ℤ
  elbow : ℤ
  wrist : ℤ
  deriving DecidableEq

/-- The all-zero velocity command. -/
def zeroCmd : Cmd := ⟨0, 0, 0, 0⟩

/-- State of a `NavigationSystem` instance.  `mapSize0`, `mapSize1`,
`res` (map resolution) and `safetyMargin` come from the configuration;
`originX`/`originY` are fixed by `_initialize_map`; the remaining fields are
the mutable navigation state.  Log output is recorded as a list of events,
most recent first. -/
structure NavState where
  mapSize0 : ℤ
  mapSize1 : ℤ
  res : ℚ
  safetyMargin : ℚ
  originX : ℚ
  originY : ℚ
  occ : Grid
  curX : ℚ
  curY : ℚ
  curTheta : ℚ
  targetX : ℚ
  targetY : ℚ
  targetTheta : ℚ
  path : List (ℚ × ℚ × ℚ)
  isNavigating : Bool
  emergencyStopActive : Bool
  logs : List LogEvent

/-- The fixed threshold `self.min_obstacle_distance = 0.5` (meters). -/
def min_obstacle_distance : ℚ := 1/2

/-- Constructor plus `_initialize_map`: all cells unknown (0.5), origin at
`-(size * resolution) / 2` per axis, robot at the world origin, idle. -/
def initState (size0 size1 : ℤ) (res margin : ℚ) : NavState :=
  { mapSize0 := size0
    mapSize1 := size1
    res := res
    safetyMargin := margin
    originX := -(size0 * res) / 2
    originY := -(size1 * res) / 2
    occ := fun _ _ => 1/2
    curX := 0, curY := 0, curTheta := 0
    targetX := 0, targetY := 0, targetTheta := 0
    path := []
    isNavigating := false
    emergencyStopActive := false
    logs := [] }

/-- Source `_world_to_map`: `int((w - origin) / resolution)` per axis. -/
def world_to_map (s : NavState) (p : ℚ × ℚ) : ℤ × ℤ :=
  (pyIntQ ((p.1 - s.originX) / s.res), pyIntQ ((p.2 - s.originY) / s.res))

/-- Source `_map_to_world`: `m * resolution + origin` per axis. -/
def map_to_world (s : NavState) (c : ℤ × ℤ) : ℚ × ℚ :=
  ((c.1 : ℚ) * s.res + s.originX, (c.2 : ℚ) * s.res + s.originY)

/-- Source `emergency_stop`: raise the flag, stop navigating, clear the path. -/
def emergency_stop (s : NavState) : NavState :=
  { s with emergencyStopActive := true, isNavigating := false, path := [],
           logs := LogEvent.warnEmergencyStop :: s.logs }

/-- Source `resume`: drop the flag unconditionally. -/
def resume (s : NavState) : NavState :=
  { s with emergencyStopActive := false, logs := LogEvent.infoResumed :: s.logs }

/-- Grid cell, `(x, y)` as in the source tuples. -/
def Cell : Type := ℤ × ℤ

instance : DecidableEq Cell := by unfold Cell; infer_instance

/-- Source `_heuristic`: Manhattan distance. -/
def heuristic (a b : Cell) : ℤ := |a.1 - b.1| + |a.2 - b.2|

/-- Source `_get_neighbors`: the eight surrounding cells, in the loop order of
the nested `for dx / for dy` ranges. -/
def get_neighbors (c : Cell) : List Cell :=
  ([-1, 0, 1] : List ℤ).flatMap fun dx =>
    ([-1, 0, 1] : List ℤ).filterMap fun dy =>
      if dx = 0 ∧ dy = 0 then none else some (c.1 + dx, c.2 + dy)

/-- Python `range(-sc, sc + 1)` as a list of integers. -/
def safetyRange (sc : ℤ) : List ℤ :=
  (List.range (2 * sc + 1).toNat).map fun k => (k : ℤ) - sc

/-- Source `_is_valid_cell`: in bounds, and no cell of the full square
safety neighborhood (radius `int(safety_margin / resolution)`) has occupancy
above 0.7. -/
def is_valid_cell (s : NavState) (c : Cell) : Bool :=
  decide (inBounds s.mapSize0 s.mapSize1 c.1 c.2) &&
    (let sc := pyIntQ (s.safetyMargin / s.res)
     !((safetyRange sc).any fun dx =>
        (safetyRange sc).any fun dy =>
          decide (inBounds s.mapSize0 s.mapSize1 (c.1 + dx) (c.2 + dy)) &&
            decide (s.occ (c.2 + dy) (c.1 + dx) > 7/10)))

/-- Ordering on heap entries `(priority, cell)`: Python compares the tuples
lexicographically, so `heappop` always returns the least entry. -/
def heapLe (a b : ℤ × Cell) : Bool :=
  decide (a.1 < b.1) ||
    (decide (a.1 = b.1) &&
      (decide (a.2.1 < b.2.1) ||
        (decide (a.2.1 = b.2.1) && decide (a.2.2 ≤ b.2.2))))

/-- Extraction of a least element from the open set, modelling `heappop`. -/
def popMin : List (ℤ × Cell) → Option ((ℤ × Cell) × List (ℤ × Cell))
  | [] => none
  | e :: es =>
    match popMin es with
    | none => some (e, [])
    | some (m, rest) =>
      if heapLe e m then some (e, es) else some (m, e :: rest)

/-- First-match lookup in an association list; insertion is by prepending, so
this has Python-dict overwrite semantics. -/
def dictFind {α : Type} : List (Cell × α) → Cell → Option α
  | [], _ => none
  | (k, v) :: rest, key => if k = key then some v else dictFind rest key

/-- Backtracking loop of `_a_star` path reconstruction:
`while current in came_from: path.append(current); current = came_from[current]`,
built directly in reversed order.  The fuel bound is immaterial in every run
analysed here. -/
def reconstructLoop : ℕ → List (Cell × Cell) → Cell → List Cell → List Cell
  | fuel, cf, current, acc =>
    match dictFind cf current with
    | some prev =>
      match fuel with
      | 0 => current :: acc
      | fuel + 1 => reconstructLoop fuel cf prev (current :: acc)
    | none => acc

/-- Main loop of `_a_star`.  State: open set, `came_from`, `g_score`,
`f_score`.  Fuel only bounds the iteration count; `none` means the bound was
hit, which never occurs in the runs analysed here. -/
def aStarLoop (s : NavState) (start goal : Cell) :
    ℕ → List (ℤ × Cell) → List (Cell × Cell) → List (Cell × ℤ) → List (Cell × ℤ) →
    Option (List Cell)
  | 0, _, _, _, _ => none
  | fuel + 1, openSet, cameFrom, gScore, fScore =>
    match popMin openSet with
    | none => some []
    | some (cur, rest) =>
      let current := cur.2
      if current = goal then
        some (start :: reconstructLoop (fuel + 1) cameFrom current [])
      else
        let st := (get_neighbors current).foldl
          (fun (acc : List (ℤ × Cell) × List (Cell × Cell) × List (Cell × ℤ) × List (Cell × ℤ)) nb =>
            if is_valid_cell s nb then
              let tentative := (dictFind acc.2.2.1 current).getD 0 + 1
              let better :=
                match dictFind acc.2.2.1 nb with
                | none => true
                | some g => decide (tentative < g)
              if better then
                let f := tentative + heuristic nb goal
                ((f, nb) :: acc.1, (nb, current) :: acc.2.1,
                 (nb, tentative) :: acc.2.2.1, (nb, f) :: acc.2.2.2)
              else acc
            else acc)
          (rest, cameFrom, gScore, fScore)
        aStarLoop s start goal fuel st.1 st.2.1 st.2.2.1 st.2.2.2

/-- Iteration budget used to run the unbounded `while open_set` loop. -/
def aStarFuel : ℕ := 1000000

/-- Source `_a_star(start, goal)`. -/
def a_star (s : NavState) (start goal : Cell) : Option (List Cell) :=
  aStarLoop s start goal aStarFuel [(0, start)] [] [(start, 0)]
    [(start, heuristic start goal)]

/-- Source `_plan_path`: convert to map cells, search, convert back with the
heading fixed at 0. -/
def plan_path (s : NavState) (start goal : ℚ × ℚ × ℚ) : List (ℚ × ℚ × ℚ) :=
  let startMap := world_to_map s (start.1, start.2.1)
  let goalMap := world_to_map s (goal.1, goal.2.1)
  match a_star s startMap goalMap with
  | none => []
  | some pathMap =>
    pathMap.map fun c =>
      let w := map_to_world s c
      (w.1, w.2, 0)

/-- Source `set_target`: store the target, plan, flip `is_navigating` only on
success, log either way, never raise. -/
def set_target (s : NavState) (x y θ : ℚ) : NavState :=
  let s1 := { s with targetX := x, targetY := y, targetTheta := θ }
  let p := plan_path s1 (s1.curX, s1.curY, s1.curTheta) (x, y, θ)
  if p.isEmpty then
    { s1 with path := p, logs := LogEvent.warnPathFail :: s1.logs }
  else
    { s1 with path := p, isNavigating := true,
              logs := LogEvent.infoPathPlanned :: s1.logs }

/-- Insertion into a sorted list of distances. -/
def insertSorted (x : ℚ) : List ℚ → List ℚ
  | [] => [x]
  | y :: ys => if x ≤ y then x :: y :: ys else y :: insertSorted x ys

/-- Ascending sort, modelling Python `sorted`. -/
def sortQ (l : List ℚ) : List ℚ := l.foldr insertSorted []

/-- Source `LidarController.get_obstacles_in_direction`: distances of the
samples whose wraparound-corrected angular difference from `targetAngle` is
within `tol`, sorted ascending. -/
def get_obstacles_in_direction (scan : List Sample) (targetAngle tol : ℚ) :
    List ℚ :=
  sortQ (scan.filterMap fun t =>
    let d0 := |t.2.1 - targetAngle|
    let d := if d0 > 180 then 360 - d0 else d0
    if d ≤ tol then some t.2.2 else none)

/-- Python `min` over a nonempty list (0 on the empty list, never used there). -/
def pyMin : List ℚ → ℚ
  | [] => 0
  | x :: xs => xs.foldl min x

/-- Source `_check_immediate_obstacles`: front sector of half-width 30
degrees, immediate obstacle iff some sample there is nearer than
`min_obstacle_distance`. -/
def check_immediate_obstacles (scan : List Sample) : Bool :=
  let obstacles := get_obstacles_in_direction scan 0 30
  match obstacles with
  | [] => false
  | _ => decide (pyMin obstacles < min_obstacle_distance)

/-- Filter of `LidarController._scan_loop`: keep a raw sample (distance in
millimeters) iff `quality > 10 and 0.1 < distance < max_distance * 1000`,
publishing it with the distance divided by 1000. -/
def scan_loop_filter (maxDistance : ℚ) (raw : List Sample) : List Sample :=
  raw.filterMap fun t =>
    if 10 < t.1 ∧ (1/10 : ℚ) < t.2.2 ∧ t.2.2 < maxDistance * 1000 then
      some ((t.1, t.2.1, t.2.2 / 1000) : Sample)
    else none

/-- Wraparound-aware angular distance as the specification words it:
`min(abs(delta), 360 - abs(delta))`. -/
def angularDistanceSpec (a b : ℚ) : ℚ := min |a - b| (360 - |a - b|)

/-- Test for 8-adjacency of two distinct cells. -/
def eightAdjacent (a b : Cell) : Bool :=
  decide (a ≠ b) && decide (|a.1 - b.1| ≤ 1) && decide (|a.2 - b.2| ≤ 1)

/-- Every pair of consecutive cells in the list is 8-adjacent. -/
def adjacentChain : List Cell → Bool
  | [] => true
  | [_] => true
  | a :: b :: t => eightAdjacent a b && adjacentChain (b :: t)

/-- First normalization loop of `_execute_path_following`:
`while angle_diff > np.pi: angle_diff -= 2 * np.pi`. -/
noncomputable def normUp (d : ℝ) : ℝ :=
  if Real.pi < d then normUp (d - 2 * Real.pi) else d
termination_by (⌈(d - Real.pi) / (2 * Real.pi)⌉).toNat
decreasing_by
  have hπ : (0 : ℝ) < Real.pi := Real.pi_pos
  have h2 : (0 : ℝ) < 2 * Real.pi := by linarith
  have key : (d - 2 * Real.pi - Real.pi) / (2 * Real.pi)
      = (d - Real.pi) / (2 * Real.pi) - 1 := by field_simp; ring
  rw [key, Int.ceil_sub_one]
  have hpos : 0 < ⌈(d - Real.pi) / (2 * Real.pi)⌉ :=
    Int.ceil_pos.mpr (div_pos (by linarith) h2)
  omega

/-- Second normalization loop of `_execute_path_following`:
`while angle_diff < -np.pi: angle_diff += 2 * np.pi`. -/
noncomputable def normDown (d : ℝ) : ℝ :=
  if d < -Real.pi then normDown (d + 2 * Real.pi) else d
termination_by (⌈(-Real.pi - d) / (2 * Real.pi)⌉).toNat
decreasing_by
  have hπ : (0 : ℝ) < Real.pi := Real.pi_pos
  have h2 : (0 : ℝ) < 2 * Real.pi := by linarith
  have key : (-Real.pi - (d + 2 * Real.pi)) / (2 * Real.pi)
      = (-Real.pi - d) / (2 * Real.pi) - 1 := by field_simp; ring
  rw [key, Int.ceil_sub_one]
  have hpos : 0 < ⌈(-Real.pi - d) / (2 * Real.pi)⌉ :=
    Int.ceil_pos.mpr (div_pos (by linarith) h2)
  omega

/-- Heading-error normalization of `_execute_path_following`: both adjustment
loops in source order. -/
noncomputable def normalizeAngle (d : ℝ) : ℝ := normDown (normUp d)

/-- The numpy `arctan2(y, x)` function, with values in `(-pi, pi]`. -/
noncomputable def atan2 (y x : ℝ) : ℝ := Complex.arg ⟨x, y⟩

/-- The numpy `clip(x, lo, hi)` function. -/
noncomputable def pyClip (x lo hi : ℝ) : ℝ := min (max x lo) hi

/-- Python `int(x)` on a real: truncation toward zero. -/
noncomputable def pyIntR (x : ℝ) : ℤ := if 0 ≤ x then ⌊x⌋ else -⌊-x⌋

/-- Distance from the current pose to a waypoint,
`np.linalg.norm(next_waypoint[:2] - self.current_position[:2])`. -/
noncomputable def wpDistance (s : NavState) (wp : ℚ × ℚ × ℚ) : ℝ :=
  Real.sqrt (((wp.1 - s.curX : ℚ) : ℝ) ^ 2 + ((wp.2.1 - s.curY : ℚ) : ℝ) ^ 2)

/-- Command computation of `_execute_path_following` (lines 372-397): bearing
via `arctan2`, normalized heading error, proportional control, clamping, and
the final integer motor command.  The waypoint argument is whatever
`next_waypoint` refers to at that point of the source. -/
noncomputable def followCmd (s : NavState) (wp : ℚ × ℚ × ℚ) : Cmd :=
  let angleToTarget := atan2 ((wp.2.1 - s.curY : ℚ) : ℝ) ((wp.1 - s.curX : ℚ) : ℝ)
  let angleDiff := normalizeAngle (angleToTarget - (s.curTheta : ℝ))
  let angularVelocity := pyClip (angleDiff * 2) (-1) 1
  let _linearVelocity : ℝ :=
    if |angleDiff| < 1/2 then pyClip (wpDistance s wp * (1/2)) 0 (1/2) else 0
  ⟨pyIntR (angularVelocity * 100), 0, 0, 0⟩

/-- Source `_execute_path_following`: pop the front waypoint when within the
0.1 m threshold; on arrival (path emptied) emit the zero command and stop
navigating; otherwise emit the command computed from `next_waypoint`, which
still names the popped waypoint. -/
noncomputable def execute_path_following (s : NavState) : NavState × Option Cmd :=
  match s.path with
  | [] => ({ s with isNavigating := false }, some zeroCmd)
  | wp :: rest =>
    if wpDistance s wp < 1/10 then
      if rest.isEmpty then
        ({ s with path := rest, isNavigating := false,
                  logs := LogEvent.infoTargetReached :: s.logs }, some zeroCmd)
      else ({ s with path := rest }, some (followCmd s wp))
    else (s, some (followCmd s wp))

/-- Polar-to-cell conversion of `_update_slam` (lines 88-96): Cartesian offset
by real trigonometry, then `int((coord - origin) / resolution)` per axis. -/
noncomputable def sample_endpoint_cell (s : NavState) (t : Sample) : ℤ × ℤ :=
  let angleRad : ℝ := (t.2.1 : ℝ) * Real.pi / 180
  let x : ℝ := (t.2.2 : ℝ) * Real.cos angleRad
  let y : ℝ := (t.2.2 : ℝ) * Real.sin angleRad
  (pyIntR ((x - (s.originX : ℝ)) / (s.res : ℝ)),
   pyIntR ((y - (s.originY : ℝ)) / (s.res : ℝ)))

/-- Source `_update_slam`: fold the per-sample endpoint update over the scan;
only the occupancy grid changes, and an empty scan is a no-op. -/
noncomputable def update_slam (s : NavState) (scan : List Sample) : NavState :=
  let newOcc :=
    scan.foldl
      (fun g t =>
        let c := sample_endpoint_cell s t
        slamProcessEndpoint s.mapSize0 s.mapSize1 g c.1 c.2) s.occ
  { s with occ := newOcc }

/-- Source `update`: emergency stop first, then SLAM, then the immediate
obstacle check, then path following, else idle (`None`). -/
noncomputable def update (s : NavState) (scan : List Sample) :
    NavState × Option Cmd :=
  if s.emergencyStopActive then (s, some zeroCmd)
  else
    let s1 := update_slam s scan
    if check_immediate_obstacles scan then
      ({ s1 with logs := LogEvent.warnObstacle :: s1.logs }, some zeroCmd)
    else if s1.isNavigating && !s1.path.isEmpty then
      execute_path_following s1
    else (s1, none)

/-- Floor of a rational, via floor division of the numerator by the
denominator (kernel-friendly form). -/
def qFloor (q : ℚ) : ℤ := q.num.fdiv (q.den : ℤ)

/-- Rounding of a rational to the nearest integer with ties to even — the
IEEE-754 default rounding used by every Python/numpy float operation. -/
def rne (r : ℚ) : ℤ :=
  let f := qFloor r
  if r - (f : ℚ) < 1/2 then f
  else if (1/2 : ℚ) < r - (f : ℚ) then f + 1
  else if f % 2 = 0 then f else f + 1

/-- Power of two as a rational, for signed exponents. -/
def pow2Q (k : ℤ) : ℚ :=
  if 0 ≤ k then ((2 : ℚ) ^ k.toNat) else 1 / (2 : ℚ) ^ (-k).toNat

/-- Fuel-bounded floor base-2 logarithm on naturals. -/
def natLog2F : ℕ → ℕ → ℕ
  | 0, _ => 0
  | f + 1, n => if 2 ≤ n then natLog2F f (n / 2) + 1 else 0

/-- Floor of the base-2 logarithm of a positive rational: the unique `k` with
`2^k ≤ q < 2^(k+1)`, located from the bit lengths of numerator and
denominator and fixed up by direct comparison. -/
def floorLog2 (q : ℚ) : ℤ :=
  let k0 : ℤ := (natLog2F 256 q.num.toNat : ℤ) - (natLog2F 256 q.den : ℤ)
  if q < pow2Q k0 then k0 - 1
  else if q < pow2Q (k0 + 1) then k0
  else k0 + 1

/-- Rounding of a rational to the IEEE binary64 grid: round to nearest, ties
to even, 53 significant bits (normal range; ample for every magnitude
arising in the conversions modelled here).  This is the value semantics of
each CPython/numpy double operation in the source. -/
def fl64 (q : ℚ) : ℚ :=
  if q = 0 then 0
  else
    let s : ℚ := if q < 0 then -1 else 1
    let aq := |q|
    let e := floorLog2 aq - 52
    s * ((rne (aq / pow2Q e) : ℚ) * pow2Q e)

/-- The default `map_resolution` 0.05 (navigation_system.py:38) as the
binary64 double which the Python literal denotes. -/
def map_resolution_default : ℚ := fl64 (1/20)

/-- The default per-axis map origin `-2000 * 0.05 / 2`
(navigation_system.py:39 and 51-52) computed operation-by-operation in
binary64. -/
def map_origin_default : ℚ :=
  fl64 (fl64 ((-2000 : ℚ) * map_resolution_default) / 2)

/-- Source `_map_to_world` with every arithmetic operation rounded to
binary64, exactly as the Python doubles evaluate it. -/
def map_to_world_float (res ox oy : ℚ) (c : ℤ × ℤ) : ℚ × ℚ :=
  (fl64 (fl64 ((c.1 : ℚ) * res) + ox), fl64 (fl64 ((c.2 : ℚ) * res) + oy))

/-- Source `_world_to_map` with every arithmetic operation rounded to
binary64 and the final Python `int()` truncation. -/
def world_to_map_float (res ox oy : ℚ) (p : ℚ × ℚ) : ℤ × ℤ :=
  (pyIntQ (fl64 (fl64 (p.1 - ox) / res)), pyIntQ (fl64 (fl64 (p.2 - oy) / res)))

/-- The data-model invariant under scrutiny: an active emergency stop forces
not-navigating and an empty path. -/
def emergencyInv (s : NavState) : Prop :=
  s.emergencyStopActive = true → s.isNavigating = false ∧ s.path = []

instance (s : NavState) : Decidable (emergencyInv s) := by
  unfold emergencyInv; infer_instance

attribute [local semireducible] Rat.add Rat.sub Rat.mul Rat.inv Rat.ofScientific

/-- Helper for consing a non-endpoint head onto a verified Bresenham tail. -/
theorem bresConsStep (x y x1 y1 : ℤ) (L : List (ℤ × ℤ)) (hL : L ≠ [])
    (hlast : L.getLast? = some (x1, y1))
    (hdrop : ∀ p ∈ L.dropLast, p ≠ ((x1, y1) : ℤ × ℤ))
    (hhead : ((x, y) : ℤ × ℤ) ≠ (x1, y1)) :
    ((x, y) :: L) ≠ [] ∧ ((x, y) :: L).getLast? = some (x1, y1) ∧
      ∀ p ∈ ((x, y) :: L).dropLast, p ≠ ((x1, y1) : ℤ × ℤ) := by
  obtain ⟨h', t', rfl⟩ := List.exists_cons_of_ne_nil hL
  refine ⟨List.cons_ne_nil _ _, ?_, ?_⟩
  · rw [List.getLast?_cons_cons]; exact hlast
  · intro p hp
    rw [List.dropLast_cons₂] at hp
    rcases List.mem_cons.mp hp with h | h
    · exact h ▸ hhead
    · exact hdrop p h

/-- Invariant-carrying correctness of the `_bresenham_line` loop: with the
error-term invariant and enough fuel, the produced point list is nonempty,
ends exactly at the endpoint, and no earlier point equals the endpoint. -/
theorem bresLoop_spec (x0 y0 x1 y1 dx dy sx sy : ℤ)
    (hsx : sx = 1 ∨ sx = -1) (hsy : sy = 1 ∨ sy = -1)
    (hdx : 0 ≤ dx) (hdy : 0 ≤ dy)
    (hx1 : x1 = x0 + sx * dx) (hy1 : y1 = y0 + sy * dy) :
    ∀ (fuel : ℕ) (a b x y err : ℤ),
      x = x0 + sx * a → y = y0 + sy * b →
      0 ≤ a → a ≤ dx → 0 ≤ b → b ≤ dy →
      err = (1 + b) * dx - (1 + a) * dy →
      (dx - a) + (dy - b) ≤ (fuel : ℤ) →
      bresLoop x1 y1 dx dy sx sy fuel x y err ≠ [] ∧
        (bresLoop x1 y1 dx dy sx sy fuel x y err).getLast? = some (x1, y1) ∧
        ∀ p ∈ (bresLoop x1 y1 dx dy sx sy fuel x y err).dropLast,
          p ≠ ((x1, y1) : ℤ × ℤ) := by
  intro fuel
  induction fuel with
  | zero =>
    intro a b x y err hx hy ha0 hadx hb0 hbdy herr hfuel
    have ha : a = dx := by omega
    have hb : b = dy := by omega
    have hxx : x = x1 := by rw [hx, ha, ← hx1]
    have hyy : y = y1 := by rw [hy, hb, ← hy1]
    subst hxx; subst hyy
    simp [bresLoop]
  | succ f ih =>
    intro a b x y err hx hy ha0 hadx hb0 hbdy herr hfuel
    by_cases hend : x = x1 ∧ y = y1
    · obtain ⟨hxx, hyy⟩ := hend
      subst hxx; subst hyy
      simp [bresLoop]
    · have hne : ((x, y) : ℤ × ℤ) ≠ (x1, y1) := by
        intro hp
        exact hend ⟨congrArg Prod.fst hp, congrArg Prod.snd hp⟩
      have hsx1 : sx * sx = 1 := by rcases hsx with h | h <;> simp [h]
      have hsy1 : sy * sy = 1 := by rcases hsy with h | h <;> simp [h]
      have hnotboth : ¬(a = dx ∧ b = dy) := by
        rintro ⟨ha, hb⟩
        exact hend ⟨by rw [hx, ha, ← hx1], by rw [hy, hb, ← hy1]⟩
      have hprog : (2 * err > -dy) ∨ (2 * err < dx) := by
        by_contra hcon
        push_neg at hcon
        have hdx0 : dx = 0 := by omega
        have hdy0 : dy = 0 := by omega
        exact hnotboth ⟨by omega, by omega⟩
      have hcondX_lt : 2 * err > -dy → a < dx := by
        intro hc
        rcases lt_or_eq_of_le hadx with h | ha
        · exact h
        · exfalso
          have hb : b < dy := by
            rcases lt_or_eq_of_le hbdy with h' | hb'
            · exact h'
            · exact absurd ⟨ha, hb'⟩ hnotboth
          nlinarith [herr, mul_le_mul_of_nonneg_left (show b + 1 ≤ dy by omega)
            (show (0:ℤ) ≤ 2 * dx by omega)]
      have hcondY_lt : 2 * err < dx → b < dy := by
        intro hc
        rcases lt_or_eq_of_le hbdy with h | hb
        · exact h
        · exfalso
          have ha : a < dx := by
            rcases lt_or_eq_of_le hadx with h' | ha'
            · exact h'
            · exact absurd ⟨ha', hb⟩ hnotboth
          nlinarith [herr, mul_le_mul_of_nonneg_left (show a + 1 ≤ dx by omega)
            (show (0:ℤ) ≤ 2 * dy by omega)]
      rw [show bresLoop x1 y1 dx dy sx sy (f + 1) x y err
            = (x, y) ::
              (if x = x1 ∧ y = y1 then []
               else
                 let e2 := 2 * err
                 let x' := if e2 > -dy then x + sx else x
                 let err1 := if e2 > -dy then err - dy else err
                 let y' := if e2 < dx then y + sy else y
                 let err2 := if e2 < dx then err1 + dx else err1
                 bresLoop x1 y1 dx dy sx sy f x' y' err2) from rfl]
      rw [if_neg hend]
      by_cases hcx : 2 * err > -dy <;> by_cases hcy : 2 * err < dx <;>
        simp only [if_pos, if_neg, hcx, hcy, if_true, if_false]
      · -- both step
        have ha' : a < dx := hcondX_lt hcx
        have hb' : b < dy := hcondY_lt hcy
        exact bresConsStep x y x1 y1 _
          ((ih (a + 1) (b + 1) (x + sx) (y + sy) (err - dy + dx)
            (by rw [hx]; ring) (by rw [hy]; ring)
            (by omega) (by omega) (by omega) (by omega)
            (by rw [herr]; ring) (by push_cast at hfuel ⊢; omega)).1)
          ((ih (a + 1) (b + 1) (x + sx) (y + sy) (err - dy + dx)
            (by rw [hx]; ring) (by rw [hy]; ring)
            (by omega) (by omega) (by omega) (by omega)
            (by rw [herr]; ring) (by push_cast at hfuel ⊢; omega)).2.1)
          ((ih (a + 1) (b + 1) (x + sx) (y + sy) (err - dy + dx)
            (by rw [hx]; ring) (by rw [hy]; ring)
            (by omega) (by omega) (by omega) (by omega)
            (by rw [herr]; ring) (by push_cast at hfuel ⊢; omega)).2.2)
          hne
      · -- x step only
        have ha' : a < dx := hcondX_lt hcx
        exact bresConsStep x y x1 y1 _
          ((ih (a + 1) b (x + sx) y (err - dy)
            (by rw [hx]; ring) hy
            (by omega) (by omega) hb0 hbdy
            (by rw [herr]; ring) (by push_cast at hfuel ⊢; omega)).1)
          ((ih (a + 1) b (x + sx) y (err - dy)
            (by rw [hx]; ring) hy
            (by omega) (by omega) hb0 hbdy
            (by rw [herr]; ring) (by push_cast at hfuel ⊢; omega)).2.1)
          ((ih (a + 1) b (x + sx) y (err - dy)
            (by rw [hx]; ring) hy
            (by omega) (by omega) hb0 hbdy
            (by rw [herr]; ring) (by push_cast at hfuel ⊢; omega)).2.2)
          hne
      · -- y step only
        have hb' : b < dy := hcondY_lt hcy
        exact bresConsStep x y x1 y1 _
          ((ih a (b + 1) x (y + sy) (err + dx)
            hx (by rw [hy]; ring)
            ha0 hadx (by omega) (by omega)
            (by rw [herr]; ring) (by push_cast at hfuel ⊢; omega)).1)
          ((ih a (b + 1) x (y + sy) (err + dx)
            hx (by rw [hy]; ring)
            ha0 hadx (by omega) (by omega)
            (by rw [herr]; ring) (by push_cast at hfuel ⊢; omega)).2.1)
          ((ih a (b + 1) x (y + sy) (err + dx)
            hx (by rw [hy]; ring)
            ha0 hadx (by omega) (by omega)
            (by rw [herr]; ring) (by push_cast at hfuel ⊢; omega)).2.2)
          hne
      · -- no step possible: contradiction
        exact absurd hprog (by push_neg; exact ⟨by omega, by omega⟩)

/-- Instantiation of `bresLoop_spec` at the loop's actual starting state. -/
theorem bresLoop_start (x0 y0 x1 y1 dx dy sx sy : ℤ)
    (hsx : sx = 1 ∨ sx = -1) (hsy : sy = 1 ∨ sy = -1)
    (hdx : 0 ≤ dx) (hdy : 0 ≤ dy)
    (hx1 : x1 = x0 + sx * dx) (hy1 : y1 = y0 + sy * dy) :
    bresLoop x1 y1 dx dy sx sy (dx + dy).toNat x0 y0 (dx - dy) ≠ [] ∧
      (bresLoop x1 y1 dx dy sx sy (dx + dy).toNat x0 y0 (dx - dy)).getLast?
        = some (x1, y1) ∧
      ∀ p ∈ (bresLoop x1 y1 dx dy sx sy (dx + dy).toNat x0 y0 (dx - dy)).dropLast,
        p ≠ ((x1, y1) : ℤ × ℤ) :=
  bresLoop_spec x0 y0 x1 y1 dx dy sx sy hsx hsy hdx hdy hx1 hy1
    (dx + dy).toNat 0 0 x0 y0 (dx - dy)
    (by ring) (by ring) le_rfl hdx le_rfl hdy (by ring)
    (by rw [Int.toNat_of_nonneg (by omega)]; omega)

/-- Correctness of `_bresenham_line`: nonempty, the final point is exactly the
requested endpoint, and the endpoint does not occur among the earlier points. -/
theorem bresenham_line_spec (x0 y0 x1 y1 : ℤ) :
    bresenham_line x0 y0 x1 y1 ≠ [] ∧
      (bresenham_line x0 y0 x1 y1).getLast? = some (x1, y1) ∧
      ∀ p ∈ (bresenham_line x0 y0 x1 y1).dropLast, p ≠ ((x1, y1) : ℤ × ℤ) := by
  unfold bresenham_line
  by_cases hx : x0 < x1 <;> by_cases hy : y0 < y1 <;>
    simp only [if_pos, if_neg, hx, hy, if_true, if_false]
  · exact bresLoop_start x0 y0 x1 y1 _ _ _ _ (Or.inl rfl) (Or.inl rfl)
      (abs_nonneg _) (abs_nonneg _)
      (by rw [abs_of_nonneg (show (0:ℤ) ≤ x1 - x0 by omega)]; ring)
      (by rw [abs_of_nonneg (show (0:ℤ) ≤ y1 - y0 by omega)]; ring)
  · exact bresLoop_start x0 y0 x1 y1 _ _ _ _ (Or.inl rfl) (Or.inr rfl)
      (abs_nonneg _) (abs_nonneg _)
      (by rw [abs_of_nonneg (show (0:ℤ) ≤ x1 - x0 by omega)]; ring)
      (by rw [abs_of_nonpos (show y1 - y0 ≤ (0:ℤ) by omega)]; ring)
  · exact bresLoop_start x0 y0 x1 y1 _ _ _ _ (Or.inr rfl) (Or.inl rfl)
      (abs_nonneg _) (abs_nonneg _)
      (by rw [abs_of_nonpos (show x1 - x0 ≤ (0:ℤ) by omega)]; ring)
      (by rw [abs_of_nonneg (show (0:ℤ) ≤ y1 - y0 by omega)]; ring)
  · exact bresLoop_start x0 y0 x1 y1 _ _ _ _ (Or.inr rfl) (Or.inr rfl)
      (abs_nonneg _) (abs_nonneg _)
      (by rw [abs_of_nonpos (show x1 - x0 ≤ (0:ℤ) by omega)]; ring)
      (by rw [abs_of_nonpos (show y1 - y0 ≤ (0:ℤ) by omega)]; ring)

/-- Cells already free stay free through the ray-marking fold of
`_update_ray_casting` (every write is a 0). -/
theorem rayFold_preserves_zero (size0 size1 : ℤ) (pts : List (ℤ × ℤ)) (g : Grid)
    (x y : ℤ) (h : g y x = 0) :
    (pts.foldl
      (fun g p => if inBounds size0 size1 p.1 p.2 then setCell g p.2 p.1 0 else g)
      g) y x = 0 := by
  induction pts generalizing g with
  | nil => exact h
  | cons p t ih =>
    rw [List.foldl_cons]
    apply ih
    dsimp only
    by_cases hb : inBounds size0 size1 p.1 p.2
    · rw [if_pos hb]
      unfold setCell
      by_cases hc : y = p.2 ∧ x = p.1
      · rw [if_pos hc]
      · rw [if_neg hc]; exact h
    · rw [if_neg hb]; exact h

/-- Every in-bounds cell of the point list ends up free after the fold of
`_update_ray_casting`. -/
theorem rayFold_mem_zero (size0 size1 : ℤ) (pts : List (ℤ × ℤ)) (g : Grid)
    (q : ℤ × ℤ) (hq : q ∈ pts) (hb : inBounds size0 size1 q.1 q.2) :
    (pts.foldl
      (fun g p => if inBounds size0 size1 p.1 p.2 then setCell g p.2 p.1 0 else g)
      g) q.2 q.1 = 0 := by
  induction pts generalizing g with
  | nil => cases hq
  | cons p t ih =>
    rcases List.mem_cons.mp hq with rfl | hmem
    · rw [List.foldl_cons]
      apply rayFold_preserves_zero
      dsimp only
      rw [if_pos hb]
      unfold setCell
      rw [if_pos ⟨rfl, rfl⟩]
    · rw [List.foldl_cons]
      exact ih _ hmem

/-- Cells distinct from all points of the list are untouched by the fold of
`_update_ray_casting`. -/
theorem rayFold_untouched (size0 size1 : ℤ) (pts : List (ℤ × ℤ)) (g : Grid)
    (q : ℤ × ℤ) (h : ∀ p ∈ pts, p ≠ q) :
    (pts.foldl
      (fun g p => if inBounds size0 size1 p.1 p.2 then setCell g p.2 p.1 0 else g)
      g) q.2 q.1 = g q.2 q.1 := by
  induction pts generalizing g with
  | nil => rfl
  | cons p t ih =>
    rw [List.foldl_cons, ih _ fun p' hp' => h p' (List.mem_cons_of_mem _ hp')]
    by_cases hb : inBounds size0 size1 p.1 p.2
    · rw [if_pos hb]
      unfold setCell
      rw [if_neg]
      rintro ⟨h2, h1⟩
      exact h p (List.mem_cons_self _ _) (Prod.ext_iff.mpr ⟨h1.symm, h2.symm⟩)
    · rw [if_neg hb]

/-- C4: for every ingested range sample whose endpoint grid cell is in
bounds, the SLAM step marks the endpoint cell occupied (1.0), marks every
in-bounds cell of the integer-rasterized line from the robot's local origin
cell (0,0) to the endpoint — the endpoint itself excluded — free (0.0),
skipping out-of-bounds cells by construction; and with no scan data the SLAM
step changes nothing. -/
theorem slam_sample_marking :
    (∀ (size0 size1 : ℤ) (g : Grid) (mx my : ℤ),
        inBounds size0 size1 mx my →
        slamProcessEndpoint size0 size1 g mx my my mx = 1 ∧
          ∀ p ∈ bresenham_line 0 0 mx my, p ≠ ((mx, my) : ℤ × ℤ) →
            inBounds size0 size1 p.1 p.2 →
            slamProcessEndpoint size0 size1 g mx my p.2 p.1 = 0) ∧
      ∀ (s : NavState) (scan : List Sample), scan = [] → update_slam s scan = s := by
  constructor
  · intro size0 size1 g mx my hb
    obtain ⟨hne, hlast, hdrop⟩ := bresenham_line_spec 0 0 mx my
    unfold slamProcessEndpoint
    rw [if_pos hb]
    unfold update_ray_casting
    constructor
    · have hu := rayFold_untouched size0 size1 (bresenham_line 0 0 mx my).dropLast
        (setCell g my mx 1) (mx, my) hdrop
      dsimp only at hu
      rw [hu]
      unfold setCell
      rw [if_pos ⟨rfl, rfl⟩]
    · intro p hp hpne hpb
      have hpdrop : p ∈ (bresenham_line 0 0 mx my).dropLast := by
        rw [← List.dropLast_append_getLast? (mx, my) (Option.mem_def.mpr hlast)]
          at hp
        rcases List.mem_append.mp hp with h | h
        · exact h
        · rw [List.mem_singleton] at h
          exact absurd h hpne
      exact rayFold_mem_zero size0 size1 _ _ p hpdrop hpb
  · intro s scan hscan
    subst hscan
    rfl

/-- Witness for C4 at a concrete in-bounds sample endpoint (3,0) on a 5 by 5
grid: the endpoint cell is occupied afterward and the strictly interior line
cell (1,0) is free afterward. -/
theorem slam_sample_marking_witness :
    inBounds 5 5 3 0 ∧ ((1, 0) : ℤ × ℤ) ∈ bresenham_line 0 0 3 0 ∧
      slamProcessEndpoint 5 5 (fun _ _ => 1/2) 3 0 0 3 = 1 ∧
      slamProcessEndpoint 5 5 (fun _ _ => 1/2) 3 0 0 1 = 0 :=
  ⟨by decide, by decide,
    (slam_sample_marking.1 5 5 (fun _ _ => 1/2) 3 0 (by decide)).1,
    (slam_sample_marking.1 5 5 (fun _ _ => 1/2) 3 0 (by decide)).2
      (1, 0) (by decide) (by decide) (by decide)⟩

/-- C2: each `update()` call follows the fixed priority order — emergency
stop yields the zero command unconditionally; else a detected immediate
obstacle yields the zero command and a warning log entry; else navigating
with a nonempty path yields exactly the path-follower output on the
post-SLAM state; else no command. -/
theorem update_priority_order :
    ∀ (s : NavState) (scan : List Sample),
      (s.emergencyStopActive = true → update s scan = (s, some zeroCmd)) ∧
      (s.emergencyStopActive = false → check_immediate_obstacles scan = true →
        (update s scan).2 = some zeroCmd ∧
          (update s scan).1.logs = LogEvent.warnObstacle :: s.logs) ∧
      (s.emergencyStopActive = false → check_immediate_obstacles scan = false →
        s.isNavigating = true → s.path ≠ [] →
        update s scan = execute_path_following (update_slam s scan)) ∧
      (s.emergencyStopActive = false → check_immediate_obstacles scan = false →
        (s.isNavigating = false ∨ s.path = []) → (update s scan).2 = none) := by
  intro s scan
  refine ⟨?_, ?_, ?_, ?_⟩
  · intro h
    unfold update
    rw [if_pos h]
  · intro h1 h2
    unfold update
    rw [if_neg (by rw [h1]; exact Bool.false_ne_true), if_pos h2]
    exact ⟨rfl, rfl⟩
  · intro h1 h2 h3 h4
    unfold update
    rw [if_neg (by rw [h1]; exact Bool.false_ne_true), if_neg (by rw [h2]; exact Bool.false_ne_true)]
    have hcond : ((update_slam s scan).isNavigating
        && !(update_slam s scan).path.isEmpty) = true := by
      have h5 : (update_slam s scan).isNavigating = s.isNavigating := rfl
      have h6 : (update_slam s scan).path = s.path := rfl
      rw [h5, h6, h3]
      cases hp : s.path with
      | nil => exact absurd hp h4
      | cons a t => rfl
    rw [if_pos hcond]
  · intro h1 h2 h3
    unfold update
    rw [if_neg (by rw [h1]; exact Bool.false_ne_true), if_neg (by rw [h2]; exact Bool.false_ne_true)]
    have hcond : ((update_slam s scan).isNavigating
        && !(update_slam s scan).path.isEmpty) = false := by
      have h5 : (update_slam s scan).isNavigating = s.isNavigating := rfl
      have h6 : (update_slam s scan).path = s.path := rfl
      rw [h5, h6]
      rcases h3 with h | h
      · rw [h]; rfl
      · rw [h]; simp
    rw [if_neg (by rw [hcond]; exact Bool.false_ne_true)]

/-- Witness for C2: the four priority branches exercised at concrete states —
an emergency-stopped system, an idle system seeing a close frontal obstacle,
a navigating system with a clear scan, and an idle system with a clear scan. -/
theorem update_priority_order_witness :
    update (emergency_stop (initState 4 4 1 (3/10))) []
        = (emergency_stop (initState 4 4 1 (3/10)), some zeroCmd) ∧
      ((update (initState 4 4 1 (3/10)) [((15:ℚ), (5:ℚ), (3/10:ℚ))]).2 = some zeroCmd ∧
        (update (initState 4 4 1 (3/10)) [((15:ℚ), (5:ℚ), (3/10:ℚ))]).1.logs
          = LogEvent.warnObstacle :: (initState 4 4 1 (3/10)).logs) ∧
      update { initState 4 4 1 (3/10) with isNavigating := true, path := [(1, 1, 0)] } []
        = execute_path_following
            (update_slam { initState 4 4 1 (3/10) with isNavigating := true, path := [(1, 1, 0)] } []) ∧
      (update (initState 4 4 1 (3/10)) []).2 = none :=
  ⟨(update_priority_order (emergency_stop (initState 4 4 1 (3/10))) []).1 rfl,
    (update_priority_order (initState 4 4 1 (3/10)) [((15:ℚ), (5:ℚ), (3/10:ℚ))]).2.1
      rfl (by decide),
    (update_priority_order
        { initState 4 4 1 (3/10) with isNavigating := true, path := [(1, 1, 0)] } []).2.2.1
      rfl (by decide) rfl (by decide),
    (update_priority_order (initState 4 4 1 (3/10)) []).2.2.2 rfl (by decide) (Or.inl rfl)⟩

/-- The path follower never touches the emergency flag. -/
theorem execute_path_following_emergency (s : NavState) :
    (execute_path_following s).1.emergencyStopActive = s.emergencyStopActive := by
  unfold execute_path_following
  cases s.path with
  | nil => rfl
  | cons wp rest =>
    dsimp only
    by_cases h1 : wpDistance s wp < 1/10
    · rw [if_pos h1]
      by_cases h2 : rest.isEmpty
      · rw [if_pos h2]
      · rw [if_neg h2]
    · rw [if_neg h1]

/-- One `update()` tick never changes the emergency flag. -/
theorem update_emergency_flag (s : NavState) (scan : List Sample) :
    (update s scan).1.emergencyStopActive = s.emergencyStopActive := by
  unfold update
  by_cases hem : s.emergencyStopActive = true
  · rw [if_pos hem]
  · rw [if_neg hem]
    dsimp only
    by_cases hob : check_immediate_obstacles scan = true
    · rw [if_pos hob]
      rfl
    · rw [if_neg hob]
      by_cases hnav : ((update_slam s scan).isNavigating
          && !(update_slam s scan).path.isEmpty) = true
      · rw [if_pos hnav]
        exact execute_path_following_emergency (update_slam s scan)
      · rw [if_neg hnav]
        rfl

/-- `set_target` never touches the emergency flag. -/
theorem set_target_emergency_flag (s : NavState) (x y θ : ℚ) :
    (set_target s x y θ).emergencyStopActive = s.emergencyStopActive := by
  unfold set_target
  dsimp only
  by_cases h : (plan_path { s with targetX := x, targetY := y, targetTheta := θ }
      (s.curX, s.curY, s.curTheta) (x, y, θ)).isEmpty
  · rw [if_pos h]
  · rw [if_neg h]

/-- When planning fails, `set_target` leaves `is_navigating` untouched,
empties the path and logs the planning-failure warning. -/
theorem set_target_on_plan_failure (s : NavState) (x y θ : ℚ)
    (h : plan_path { s with targetX := x, targetY := y, targetTheta := θ }
        (s.curX, s.curY, s.curTheta) (x, y, θ) = []) :
    (set_target s x y θ).isNavigating = s.isNavigating ∧
      (set_target s x y θ).path = [] ∧
      (set_target s x y θ).logs = LogEvent.warnPathFail :: s.logs := by
  unfold set_target
  dsimp only
  rw [h]
  exact ⟨rfl, rfl, rfl⟩

/-- C1 (amended): the emergency invariant is established by
`emergency_stop`, and preserved by `resume`, by `update` and by `set_target`
whenever the system is not emergency-stopped at the call or planning fails;
`set_target` with a reachable target while emergency-stopped is the sole
violation (see the counterexample). -/
theorem emergency_invariant_preserved :
    ∀ (s : NavState) (scan : List Sample) (x y θ : ℚ),
      emergencyInv s →
      emergencyInv (emergency_stop s) ∧
        emergencyInv (resume s) ∧
        emergencyInv (update s scan).1 ∧
        (s.emergencyStopActive = false ∨
            plan_path { s with targetX := x, targetY := y, targetTheta := θ }
              (s.curX, s.curY, s.curTheta) (x, y, θ) = [] →
          emergencyInv (set_target s x y θ)) := by
  intro s scan x y θ hInv
  refine ⟨?_, ?_, ?_, ?_⟩
  · intro _
    exact ⟨rfl, rfl⟩
  · intro h
    exact absurd h (by simp [resume])
  · by_cases hem : s.emergencyStopActive = true
    · have hupd : update s scan = (s, some zeroCmd) := by
        unfold update
        rw [if_pos hem]
      rw [hupd]
      exact hInv
    · intro h
      rw [update_emergency_flag] at h
      exact absurd h hem
  · rintro (hfalse | hplan)
    · intro h
      rw [set_target_emergency_flag] at h
      rw [hfalse] at h
      exact absurd h Bool.false_ne_true
    · intro h
      rw [set_target_emergency_flag] at h
      obtain ⟨hnav, hpath, _⟩ := set_target_on_plan_failure s x y θ hplan
      exact ⟨hnav.trans (hInv h).1, hpath⟩

/-- Witness for C1 (amended) at the initial 4 by 4 state: the invariant holds
there and after each public operation. -/
theorem emergency_invariant_preserved_witness :
    emergencyInv (initState 4 4 1 (3/10)) ∧
      emergencyInv (emergency_stop (initState 4 4 1 (3/10))) ∧
      emergencyInv (resume (initState 4 4 1 (3/10))) ∧
      emergencyInv (update (initState 4 4 1 (3/10)) []).1 ∧
      emergencyInv (set_target (initState 4 4 1 (3/10)) 1 1 0) :=
  ⟨by decide,
    (emergency_invariant_preserved (initState 4 4 1 (3/10)) [] 1 1 0 (by decide)).1,
    (emergency_invariant_preserved (initState 4 4 1 (3/10)) [] 1 1 0 (by decide)).2.1,
    (emergency_invariant_preserved (initState 4 4 1 (3/10)) [] 1 1 0 (by decide)).2.2.1,
    (emergency_invariant_preserved (initState 4 4 1 (3/10)) [] 1 1 0 (by decide)).2.2.2
      (Or.inl rfl)⟩

/-- C1 counterexample: calling `set_target` with a reachable target while
emergency-stopped leaves the emergency flag raised yet switches
`is_navigating` on with a nonempty path — the invariant is violated by a
sequence of public operations. -/
theorem set_target_breaks_emergency_invariant :
    (set_target (emergency_stop (initState 6 6 1 (3/10))) 1 1 0).emergencyStopActive
        = true ∧
      (set_target (emergency_stop (initState 6 6 1 (3/10))) 1 1 0).isNavigating
        = true ∧
      (set_target (emergency_stop (initState 6 6 1 (3/10))) 1 1 0).path ≠ [] ∧
      ¬ emergencyInv (set_target (emergency_stop (initState 6 6 1 (3/10))) 1 1 0) := by
  decide

/-- C3 (amended): whenever planning returns an empty path, `set_target`
empties the stored path, logs a warning and returns normally (the embedding
is a total function), but leaves `is_navigating` exactly as it was — false
stays false, while an already-navigating system stays flagged navigating. -/
theorem set_target_plan_failure_behavior :
    ∀ (s : NavState) (x y θ : ℚ),
      plan_path { s with targetX := x, targetY := y, targetTheta := θ }
          (s.curX, s.curY, s.curTheta) (x, y, θ) = [] →
      (set_target s x y θ).isNavigating = s.isNavigating ∧
        (set_target s x y θ).path = [] ∧
        (set_target s x y θ).logs = LogEvent.warnPathFail :: s.logs ∧
        (s.isNavigating = false → (set_target s x y θ).isNavigating = false) := by
  intro s x y θ h
  obtain ⟨hnav, hpath, hlogs⟩ := set_target_on_plan_failure s x y θ h
  exact ⟨hnav, hpath, hlogs, fun hidle => hnav.trans hidle⟩

/-- Witness for C3 (amended): an idle 4 by 4 system asked for the unreachable
target (100, 100) stays idle with an empty path and a logged warning. -/
theorem set_target_plan_failure_behavior_witness :
    plan_path { initState 4 4 1 (3/10) with
        targetX := 100, targetY := 100, targetTheta := 0 }
        ((initState 4 4 1 (3/10)).curX, (initState 4 4 1 (3/10)).curY,
          (initState 4 4 1 (3/10)).curTheta) (100, 100, 0) = [] ∧
      (set_target (initState 4 4 1 (3/10)) 100 100 0).isNavigating = false := by
  refine ⟨by decide, ?_⟩
  have h := set_target_plan_failure_behavior (initState 4 4 1 (3/10)) 100 100 0
    (by decide)
  exact h.2.2.2 rfl

/-- C3 counterexample: a system already navigating that is then given an
unreachable target ends with an empty path (planning failed, warning logged)
but `is_navigating` still true — not false as the claim states. -/
theorem set_target_plan_failure_keeps_navigating :
    (set_target (set_target (initState 4 4 1 (3/10)) 1 1 0) 100 100 0).path = [] ∧
      (set_target (set_target (initState 4 4 1 (3/10)) 1 1 0) 100 100 0).isNavigating
        = true ∧
      (set_target (set_target (initState 4 4 1 (3/10)) 1 1 0) 100 100 0).logs.head?
        = some LogEvent.warnPathFail := by
  decide

/-- C5: on the all-free 50 by 50 grid (resolution 1 m per cell) a plan from
(0,0,0) to (10,10,0) is a nonempty waypoint sequence whose consecutive grid
cells, recovered through `world_to_map`, are pairwise 8-adjacent; on the same
grid with every cell except the start cell at occupancy 1.0, the plan is
empty. -/
theorem a_star_grid_scenarios :
    (plan_path { initState 50 50 1 (3/10) with occ := fun _ _ => 0 }
        (0, 0, 0) (10, 10, 0) ≠ [] ∧
      adjacentChain
        ((plan_path { initState 50 50 1 (3/10) with occ := fun _ _ => 0 }
            (0, 0, 0) (10, 10, 0)).map
          fun w => world_to_map
            { initState 50 50 1 (3/10) with occ := fun _ _ => 0 } (w.1, w.2.1))
        = true) ∧
    plan_path { initState 50 50 1 (3/10) with
        occ := fun y x => if x = 25 ∧ y = 25 then 0 else 1 }
      (0, 0, 0) (10, 10, 0) = [] := by
  decide

/-- Python integer truncation of an integer-valued rational is the integer
itself. -/
theorem pyIntQ_intCast (n : ℤ) : pyIntQ (n : ℚ) = n := by
  unfold pyIntQ
  by_cases h : (0 : ℚ) ≤ (n : ℚ)
  · rw [if_pos h, Int.floor_intCast]
  · rw [if_neg h, ← Int.cast_neg, Int.floor_intCast, neg_neg]

set_option maxRecDepth 16000 in
/-- C6 (amended): for every in-bounds grid index (i, j) the conversion
round-trip is the identity when the conversion arithmetic is exact (any
positive resolution, any origin); in the program's IEEE binary64 arithmetic
exactness is not guaranteed — under the repository's default configuration
(resolution 0.05, map size 2000 by 2000) the round-trip already fails at the
in-bounds index (1, 1). -/
theorem world_map_roundtrip :
    (∀ (s : NavState) (i j : ℤ),
        0 < s.res →
        0 ≤ i → i < s.mapSize0 → 0 ≤ j → j < s.mapSize1 →
        world_to_map s (map_to_world s (i, j)) = (i, j)) ∧
      world_to_map_float map_resolution_default map_origin_default
          map_origin_default
          (map_to_world_float map_resolution_default map_origin_default
            map_origin_default (1, 1))
        ≠ (1, 1) := by
  constructor
  · intro s i j hres hi0 hi1 hj0 hj1
    unfold world_to_map map_to_world
    dsimp only
    have hres' : s.res ≠ 0 := ne_of_gt hres
    have h1 : ((i : ℚ) * s.res + s.originX - s.originX) / s.res = (i : ℚ) := by
      field_simp
    have h2 : ((j : ℚ) * s.res + s.originY - s.originY) / s.res = (j : ℚ) := by
      field_simp
    rw [h1, h2, pyIntQ_intCast, pyIntQ_intCast]
  · decide

/-- Witness for C6 (amended): the exact-arithmetic conjunct instantiated at
the concrete 50 by 50 configuration and index (3, 7). -/
theorem world_map_roundtrip_witness :
    0 < (initState 50 50 1 (3/10)).res ∧
      world_to_map (initState 50 50 1 (3/10))
          (map_to_world (initState 50 50 1 (3/10)) (3, 7)) = (3, 7) :=
  ⟨by decide,
    world_map_roundtrip.1 (initState 50 50 1 (3/10)) 3 7 (by decide) (by decide)
      (by decide) (by decide) (by decide)⟩

set_option maxRecDepth 16000 in
/-- C6 counterexample: with the repository's default configuration
(`map_resolution = 0.05`, `map_size = [2000, 2000]`, hence per-axis origin
`-2000 * 0.05 / 2`), the source's conversion arithmetic evaluated
operation-by-operation in binary64 — exactly as the Python doubles run it —
maps the in-bounds grid index (1, 1) to world coordinates and back to
(0, 0), not (1, 1): `(1*0.05 - 50.0 + 50.0)/0.05` rounds to
`0.9999999999999432`, which `int()` truncates to 0. -/
theorem world_map_roundtrip_float_counterexample :
    inBounds 2000 2000 1 1 ∧
      world_to_map_float map_resolution_default map_origin_default
          map_origin_default
          (map_to_world_float map_resolution_default map_origin_default
            map_origin_default (1, 1))
        = (0, 0) ∧
      ((0, 0) : ℤ × ℤ) ≠ (1, 1) := by
  refine ⟨by decide, by decide, by decide⟩

/-- Membership through sorted insertion. -/
theorem mem_insertSorted (x a : ℚ) (l : List ℚ) :
    a ∈ insertSorted x l ↔ a = x ∨ a ∈ l := by
  induction l with
  | nil => simp [insertSorted]
  | cons y ys ih =>
    unfold insertSorted
    by_cases h : x ≤ y
    · rw [if_pos h]
      simp
    · rw [if_neg h]
      simp only [List.mem_cons, ih]
      tauto

/-- Membership is preserved by the ascending sort. -/
theorem mem_sortQ (a : ℚ) (l : List ℚ) : a ∈ sortQ l ↔ a ∈ l := by
  induction l with
  | nil => simp [sortQ]
  | cons x xs ih =>
    unfold sortQ at ih ⊢
    rw [List.foldr_cons, mem_insertSorted, ih, List.mem_cons]

/-- The running minimum fold is bounded by its accumulator. -/
theorem foldl_min_le_init (t : List ℚ) (acc : ℚ) : t.foldl min acc ≤ acc := by
  induction t generalizing acc with
  | nil => exact le_rfl
  | cons y ys ih =>
    rw [List.foldl_cons]
    exact le_trans (ih (min acc y)) (min_le_left _ _)

/-- The running minimum fold is bounded by every list element. -/
theorem foldl_min_le_mem (t : List ℚ) (acc x : ℚ) (hx : x ∈ t) :
    t.foldl min acc ≤ x := by
  induction t generalizing acc with
  | nil => cases hx
  | cons y ys ih =>
    rw [List.foldl_cons]
    rcases List.mem_cons.mp hx with rfl | h
    · exact le_trans (foldl_min_le_init ys (min acc x)) (min_le_right _ _)
    · exact ih _ h

/-- Python `min` is a lower bound of the list. -/
theorem pyMin_le (l : List ℚ) (x : ℚ) (hx : x ∈ l) : pyMin l ≤ x := by
  cases l with
  | nil => cases hx
  | cons h t =>
    unfold pyMin
    rcases List.mem_cons.mp hx with rfl | hmem
    · exact foldl_min_le_init t x
    · exact foldl_min_le_mem t h x hmem

/-- A sector member below the threshold makes the obstacle check fire. -/
theorem check_immediate_obstacles_true_of_mem (scan : List Sample) (d : ℚ)
    (hmem : d ∈ get_obstacles_in_direction scan 0 30) (hd : d < 1/2) :
    check_immediate_obstacles scan = true := by
  unfold check_immediate_obstacles
  cases heq : get_obstacles_in_direction scan 0 30 with
  | nil =>
    rw [heq] at hmem
    cases hmem
  | cons o os =>
    rw [heq] at hmem
    exact decide_eq_true
      (lt_of_le_of_lt (pyMin_le (o :: os) d hmem) (by unfold min_obstacle_distance; exact hd))

/-- C7: a scan containing a sample whose wraparound-aware angular distance
from the forward axis is within 30 degrees and whose distance is below 0.5 m
makes `update()` return the all-zero command on that tick — whatever the path
state — without changing the emergency-stop state (assumed inactive). -/
theorem immediate_obstacle_forces_zero :
    ∀ (s : NavState) (scan : List Sample),
      s.emergencyStopActive = false →
      (∃ t ∈ scan, angularDistanceSpec t.2.1 0 ≤ 30 ∧ t.2.2 < 1/2) →
      (update s scan).2 = some zeroCmd ∧
        (update s scan).1.emergencyStopActive = false := by
  intro s scan hem hex
  obtain ⟨t, ht, hang, hdist⟩ := hex
  have hmem : t.2.2 ∈ get_obstacles_in_direction scan 0 30 := by
    unfold get_obstacles_in_direction
    rw [mem_sortQ]
    apply List.mem_filterMap.mpr
    refine ⟨t, ht, ?_⟩
    dsimp only
    rw [sub_zero]
    have hcode : (if |t.2.1| > 180 then 360 - |t.2.1| else |t.2.1|)
        = angularDistanceSpec t.2.1 0 := by
      unfold angularDistanceSpec
      rw [sub_zero]
      by_cases h : |t.2.1| > 180
      · rw [if_pos h, min_eq_right (by linarith)]
      · rw [if_neg h, min_eq_left (by push_neg at h; linarith)]
    rw [hcode, if_pos hang]
  have hcheck : check_immediate_obstacles scan = true :=
    check_immediate_obstacles_true_of_mem scan t.2.2 hmem hdist
  constructor
  · unfold update
    rw [if_neg (by rw [hem]; exact Bool.false_ne_true), if_pos hcheck]
  · rw [update_emergency_flag]
    exact hem

/-- Witness for C7: a navigating system with a pending path and the spec's
example sample (quality 15, angle 5 degrees, distance 0.3 m). -/
theorem immediate_obstacle_forces_zero_witness :
    ({ initState 4 4 1 (3/10) with isNavigating := true, path := [(1, 1, 0)] } : NavState).emergencyStopActive = false ∧
      (update { initState 4 4 1 (3/10) with isNavigating := true, path := [(1, 1, 0)] }
          [((15:ℚ), (5:ℚ), (3/10:ℚ))]).2 = some zeroCmd ∧
      (update { initState 4 4 1 (3/10) with isNavigating := true, path := [(1, 1, 0)] }
          [((15:ℚ), (5:ℚ), (3/10:ℚ))]).1.emergencyStopActive = false :=
  ⟨rfl,
    immediate_obstacle_forces_zero
      { initState 4 4 1 (3/10) with isNavigating := true, path := [(1, 1, 0)] }
      [((15:ℚ), (5:ℚ), (3/10:ℚ))] rfl (by decide)⟩

/-- Unfolding of the first normalization loop when the guard holds. -/
theorem normUp_of_gt {d : ℝ} (h : Real.pi < d) :
    normUp d = normUp (d - 2 * Real.pi) := by
  conv_lhs => rw [normUp]
  rw [if_pos h]

/-- Unfolding of the first normalization loop when the guard fails. -/
theorem normUp_of_le {d : ℝ} (h : ¬ Real.pi < d) : normUp d = d := by
  conv_lhs => rw [normUp]
  rw [if_neg h]

/-- Unfolding of the second normalization loop when the guard holds. -/
theorem normDown_of_lt {d : ℝ} (h : d < -Real.pi) :
    normDown d = normDown (d + 2 * Real.pi) := by
  conv_lhs => rw [normDown]
  rw [if_pos h]

/-- Unfolding of the second normalization loop when the guard fails. -/
theorem normDown_of_ge {d : ℝ} (h : ¬ d < -Real.pi) : normDown d = d := by
  conv_lhs => rw [normDown]
  rw [if_neg h]

/-- The first loop's result never exceeds pi (fuel-indexed induction over the
loop's own termination measure). -/
theorem normUp_le_pi : ∀ (n : ℕ) (d : ℝ),
    (⌈(d - Real.pi) / (2 * Real.pi)⌉).toNat ≤ n → normUp d ≤ Real.pi := by
  intro n
  induction n with
  | zero =>
    intro d hn
    have hpi : (0 : ℝ) < Real.pi := Real.pi_pos
    have hle : ¬ Real.pi < d := by
      intro hlt
      have hpos : 0 < ⌈(d - Real.pi) / (2 * Real.pi)⌉ :=
        Int.ceil_pos.mpr (div_pos (by linarith) (by linarith))
      omega
    rw [normUp_of_le hle]
    exact not_lt.mp hle
  | succ k ih =>
    intro d hn
    have hpi : (0 : ℝ) < Real.pi := Real.pi_pos
    by_cases h : Real.pi < d
    · rw [normUp_of_gt h]
      apply ih
      have key : (d - 2 * Real.pi - Real.pi) / (2 * Real.pi)
          = (d - Real.pi) / (2 * Real.pi) - 1 := by
        field_simp; ring
      rw [key, Int.ceil_sub_one]
      have hpos : 0 < ⌈(d - Real.pi) / (2 * Real.pi)⌉ :=
        Int.ceil_pos.mpr (div_pos (by linarith) (by linarith))
      omega
    · rw [normUp_of_le h]
      exact not_lt.mp h

/-- The second loop maps any value at most pi into the closed band
[-pi, pi]. -/
theorem normDown_mem : ∀ (n : ℕ) (d : ℝ),
    (⌈(-Real.pi - d) / (2 * Real.pi)⌉).toNat ≤ n → d ≤ Real.pi →
    -Real.pi ≤ normDown d ∧ normDown d ≤ Real.pi := by
  intro n
  induction n with
  | zero =>
    intro d hn hd
    have hpi : (0 : ℝ) < Real.pi := Real.pi_pos
    have hge : ¬ d < -Real.pi := by
      intro hlt
      have hpos : 0 < ⌈(-Real.pi - d) / (2 * Real.pi)⌉ :=
        Int.ceil_pos.mpr (div_pos (by linarith) (by linarith))
      omega
    rw [normDown_of_ge hge]
    exact ⟨not_lt.mp hge, hd⟩
  | succ k ih =>
    intro d hn hd
    have hpi : (0 : ℝ) < Real.pi := Real.pi_pos
    by_cases h : d < -Real.pi
    · rw [normDown_of_lt h]
      apply ih
      · have key : (-Real.pi - (d + 2 * Real.pi)) / (2 * Real.pi)
            = (-Real.pi - d) / (2 * Real.pi) - 1 := by
          field_simp; ring
        rw [key, Int.ceil_sub_one]
        have hpos : 0 < ⌈(-Real.pi - d) / (2 * Real.pi)⌉ :=
          Int.ceil_pos.mpr (div_pos (by linarith) (by linarith))
        omega
      · linarith
    · rw [normDown_of_ge h]
      exact ⟨not_lt.mp h, hd⟩

/-- C8 (amended): the heading-error normalization always lands in the closed
band [-pi, pi] (the claim's half-open interval fails exactly at its left
endpoint; see the counterexample), and for the spec's example inputs 4.0 and
-4.0 radians the result does lie in (-pi, pi]. -/
theorem normalize_angle_range :
    (∀ d : ℝ, normalizeAngle d ∈ Set.Icc (-Real.pi) Real.pi) ∧
      normalizeAngle 4 ∈ Set.Ioc (-Real.pi) Real.pi ∧
      normalizeAngle (-4) ∈ Set.Ioc (-Real.pi) Real.pi := by
  have hpi : (0 : ℝ) < Real.pi := Real.pi_pos
  have hlow : Real.pi > 3.141592 := Real.pi_gt_d6
  have hhigh : Real.pi < 3.15 := Real.pi_lt_d2
  refine ⟨?_, ?_, ?_⟩
  · intro d
    have h1 : normUp d ≤ Real.pi := normUp_le_pi _ d le_rfl
    have h2 := normDown_mem _ (normUp d) le_rfl h1
    exact Set.mem_Icc.mpr h2
  · have e1 : normUp (4 : ℝ) = normUp (4 - 2 * Real.pi) :=
      normUp_of_gt (by linarith)
    have e2 : normUp ((4 : ℝ) - 2 * Real.pi) = 4 - 2 * Real.pi :=
      normUp_of_le (by intro h; linarith)
    have e3 : normDown ((4 : ℝ) - 2 * Real.pi) = 4 - 2 * Real.pi :=
      normDown_of_ge (by intro h; linarith)
    unfold normalizeAngle
    rw [e1, e2, e3]
    exact Set.mem_Ioc.mpr ⟨by linarith, by linarith⟩
  · have e1 : normUp (-4 : ℝ) = -4 := normUp_of_le (by intro h; linarith)
    have e2 : normDown (-4 : ℝ) = normDown (-4 + 2 * Real.pi) :=
      normDown_of_lt (by linarith)
    have e3 : normDown ((-4 : ℝ) + 2 * Real.pi) = -4 + 2 * Real.pi :=
      normDown_of_ge (by intro h; linarith)
    unfold normalizeAngle
    rw [e1, e2, e3]
    exact Set.mem_Ioc.mpr ⟨by linarith, by linarith⟩

/-- C8 counterexample: at a heading error of exactly -pi the normalization
returns -pi itself, which is outside the claimed half-open interval
(-pi, pi]. -/
theorem normalize_angle_boundary_counterexample :
    normalizeAngle (-Real.pi) = -Real.pi ∧
      normalizeAngle (-Real.pi) ∉ Set.Ioc (-Real.pi) Real.pi := by
  have hpi : (0 : ℝ) < Real.pi := Real.pi_pos
  have e1 : normUp (-Real.pi) = -Real.pi := normUp_of_le (by intro h; linarith)
  have e2 : normDown (-Real.pi) = -Real.pi := normDown_of_ge (by intro h; linarith)
  have hval : normalizeAngle (-Real.pi) = -Real.pi := by
    unfold normalizeAngle
    rw [e1, e2]
  refine ⟨hval, ?_⟩
  rw [hval]
  intro hmem
  exact lt_irrefl _ (Set.mem_Ioc.mp hmem).1

/-- C9 (bug exhibit): the scan-loop filter's lower bound 0.1 is compared
against the raw distance in millimeters while the upper bound is scaled to
millimeters, so a raw 50 mm return (quality 15) passes the filter and is
published as a 0.05 m sample — below the 0.1 m minimum the data-model
invariant requires. -/
theorem scan_filter_unit_bug :
    scan_loop_filter 12 [((15:ℚ), (0:ℚ), (50:ℚ))]
        = [((15:ℚ), (0:ℚ), (1/20:ℚ))] ∧
      ¬ ((1/10 : ℚ) < 1/20) := by
  constructor
  · decide
  · decide

/-- C10: when the front waypoint is within the 0.1 m threshold and at least
one waypoint remains after popping it, the command emitted on that very step
is computed from the just-popped waypoint (the source's `next_waypoint`
variable), not from the new front of the path. -/
theorem pop_then_old_waypoint_command :
    ∀ (s : NavState) (wp w2 : ℚ × ℚ × ℚ) (rest : List (ℚ × ℚ × ℚ)),
      s.path = wp :: w2 :: rest →
      wpDistance s wp < 1/10 →
      execute_path_following s
        = ({ s with path := w2 :: rest }, some (followCmd s wp)) := by
  intro s wp w2 rest hpath hdist
  unfold execute_path_following
  rw [hpath]
  dsimp only
  rw [if_pos hdist, if_neg (by simp)]

/-- Witness for C10: current pose exactly on the front waypoint (distance 0),
second waypoint pending. -/
theorem pop_then_old_waypoint_command_witness :
    ({ initState 4 4 1 (3/10) with isNavigating := true, path := [(0, 0, 0), (1, 1, 0)] } : NavState).path
        = [(0, 0, 0), (1, 1, 0)] ∧
      execute_path_following
          { initState 4 4 1 (3/10) with isNavigating := true, path := [(0, 0, 0), (1, 1, 0)] }
        = ({ initState 4 4 1 (3/10) with isNavigating := true, path := [(1, 1, 0)] },
            some (followCmd
              { initState 4 4 1 (3/10) with isNavigating := true, path := [(0, 0, 0), (1, 1, 0)] }
              (0, 0, 0))) :=
  ⟨rfl,
    pop_then_old_waypoint_command
      { initState 4 4 1 (3/10) with isNavigating := true, path := [(0, 0, 0), (1, 1, 0)] }
      (0, 0, 0) (1, 1, 0) [] rfl
      (by
        unfold wpDistance initState
        norm_num)⟩

end RTkNav
